import Mathlib

/-!
Verification of the LoanLog calculation core (`app/src/utils/emiCalculator.ts`,
`app/src/utils/interestCalculator.ts` and the backend duplicates under
`backend/src/utils/calculations/`).

The JavaScript/TypeScript code is shallowly embedded:

* monetary arithmetic is modelled exactly over `ℚ` (and over `ℝ` where the
  source uses `Math.pow` with a fractional exponent or `Math.log`);
* `Number.prototype.toFixed(2)` followed by `parseFloat` is modelled by
  `round2`: the nearest multiple of `1/100`, ties resolved upward (the
  ECMAScript specification of `toFixed` picks the larger candidate on a tie);
* a JS `Date` is date-only here (the code never sets a time of day); month
  arithmetic follows the ECMAScript `setMonth`/`setDate` normalisation, which
  is implemented below through epoch-day/civil-calendar conversions;
* a thrown `Error` is an `Except.error`; the two distinct error messages of
  the source are the two constructors of `CalcError`.
-/

namespace LoanLog

/- The Batteries rational primitives are `@[irreducible]`, which blocks
`decide` on concrete rational computations; restore the default
reducibility for this development so that concrete schedules evaluate. -/
attribute [local semireducible] Rat.mul Rat.add Rat.inv Rat.sub

/-- Decidable equality of `Except` results, needed to evaluate the embedded
operations on concrete inputs. -/
instance {ε α : Type} [DecidableEq ε] [DecidableEq α] : DecidableEq (Except ε α) := by
  intro a b
  cases a <;> cases b
  case error.error x y =>
    exact if h : x = y then .isTrue (by rw [h]) else .isFalse (by simpa using h)
  case error.ok x y => exact .isFalse (by simp)
  case ok.error x y => exact .isFalse (by simp)
  case ok.ok x y =>
    exact if h : x = y then .isTrue (by rw [h]) else .isFalse (by simpa using h)

/-- Model of `parseFloat(x.toFixed(2))` on the exact value of `x`: round to a
multiple of `1/100`, ties toward `+∞`. (`Rat.floor` is used rather than
`Int.floor` so that the definition evaluates by kernel reduction; the two
agree, see `round2_eq_floor`.) -/
def round2 (q : ℚ) : ℚ := ((q * 100 + 1 / 2).floor : ℚ) / 100

/-- The same rounding on `ℝ`, for the code paths that compute with
`Math.pow`/`Math.log` on fractional exponents. -/
noncomputable def round2R (x : ℝ) : ℝ := (⌊x * 100 + 1 / 2⌋ : ℝ) / 100

/-- The two error messages thrown by the calculation core:
`invalidInput` for the "must be positive / non-negative" guards and
`emiTooLow` for "EMI amount is too low to cover interest. Loan will never
be repaid." -/
inductive CalcError
  | invalidInput
  | emiTooLow
deriving DecidableEq

/-- Type `PaymentFrequency` of `emiCalculator.ts`. -/
inductive PaymentFrequency
  | daily
  | weekly
  | biweekly
  | monthly
  | quarterly
  | yearly
  | one_time
  | custom
deriving DecidableEq

/-- Type `CompoundFrequency` of `interestCalculator.ts`. -/
inductive CompoundFrequency
  | daily
  | weekly
  | biweekly
  | monthly
  | quarterly
  | yearly
deriving DecidableEq

/-- Type `InterestType` of `interestCalculator.ts`. -/
inductive InterestType
  | none
  | simple
  | compound
deriving DecidableEq

/-- A JS `Date`, restricted to its calendar-date part (the code only ever
builds dates and adds days/months/years to them). `month` is 0-based as in
JS. Dates produced by the operations below are always normalised. -/
structure Date where
  year : Int
  month : Int
  day : Int
deriving DecidableEq

/-- Days since 1970-01-01 of the civil date `(y, m, d)` with 1-based month
`m ∈ [1,12]` (Howard Hinnant's `days_from_civil`, the algorithm underlying
the ECMAScript `MakeDay` normalisation). -/
def daysFromCivil (y m d : Int) : Int :=
  let y' := if m ≤ 2 then y - 1 else y
  let era := y'.fdiv 400
  let yoe := y' - era * 400
  let mp := if 2 < m then m - 3 else m + 9
  let doy := (153 * mp + 2).fdiv 5 + d - 1
  let doe := yoe * 365 + yoe.fdiv 4 - yoe.fdiv 100 + doy
  era * 146097 + doe - 719468

/-- Civil date (1-based month) of an epoch-day count (Hinnant's
`civil_from_days`). -/
def civilFromDays (z : Int) : Int × Int × Int :=
  let z' := z + 719468
  let era := z'.fdiv 146097
  let doe := z' - era * 146097
  let yoe := (doe - doe.fdiv 1460 + doe.fdiv 36524 - doe.fdiv 146096).fdiv 365
  let y := yoe + era * 400
  let doy := doe - (365 * yoe + yoe.fdiv 4 - yoe.fdiv 100)
  let mp := (5 * doy + 2).fdiv 153
  let d := doy - (153 * mp + 2).fdiv 5 + 1
  let m := if mp < 10 then mp + 3 else mp - 9
  (if m ≤ 2 then y + 1 else y, m, d)

/-- Epoch-day number of a `Date` (0-based JS month converted to 1-based). -/
def Date.toEpochDay (dt : Date) : Int :=
  daysFromCivil dt.year (dt.month + 1) dt.day

/-- Normalised `Date` of an epoch-day number. -/
def Date.ofEpochDay (z : Int) : Date :=
  let c := civilFromDays z
  ⟨c.1, c.2.1 - 1, c.2.2⟩

/-- JS `d.setDate(d.getDate() + k)`. -/
def addDays (dt : Date) (k : Int) : Date :=
  Date.ofEpochDay (dt.toEpochDay + k)

/-- JS `d.setMonth(d.getMonth() + k)`: the month index is normalised into the
year, then the (possibly out-of-range) day-of-month is normalised by
`MakeDay`, e.g. Jan 31 + 1 month = Mar 3 (or Mar 2 in a leap year). -/
def addMonths (dt : Date) (k : Int) : Date :=
  let t := dt.month + k
  let y := dt.year + t.fdiv 12
  let m := t.fmod 12
  Date.ofEpochDay (daysFromCivil y (m + 1) 1 + (dt.day - 1))

/-- JS `d.setFullYear(d.getFullYear() + k)`: Feb 29 in a non-leap target year
normalises to Mar 1. -/
def addYears (dt : Date) (k : Int) : Date :=
  Date.ofEpochDay (daysFromCivil (dt.year + k) (dt.month + 1) 1 + (dt.day - 1))

theorem ratFloor_eq_intFloor (q : ℚ) : (q.floor : ℤ) = ⌊q⌋ :=
  (Rat.floor_def' q).trans Rat.floor_def.symm

theorem round2_eq_floor (q : ℚ) : round2 q = (⌊q * 100 + 1 / 2⌋ : ℚ) / 100 := by
  rw [round2, ratFloor_eq_intFloor]

theorem round2_sub_le (q : ℚ) : round2 q - q ≤ 1 / 200 := by
  rw [round2_eq_floor]
  have h := Int.floor_le (q * 100 + 1 / 2)
  nlinarith [h]

theorem neg_lt_round2_sub (q : ℚ) : -(1 / 200) < round2 q - q := by
  rw [round2_eq_floor]
  have h := Int.lt_floor_add_one (q * 100 + 1 / 2)
  nlinarith [h]

theorem abs_round2_sub_le (q : ℚ) : |round2 q - q| ≤ 1 / 200 := by
  rw [abs_le]
  exact ⟨(neg_lt_round2_sub q).le, round2_sub_le q⟩

theorem round2_mono {x y : ℚ} (h : x ≤ y) : round2 x ≤ round2 y := by
  rw [round2_eq_floor, round2_eq_floor]
  have : ⌊x * 100 + 1 / 2⌋ ≤ ⌊y * 100 + 1 / 2⌋ := Int.floor_mono (by linarith)
  have : (⌊x * 100 + 1 / 2⌋ : ℚ) ≤ (⌊y * 100 + 1 / 2⌋ : ℚ) := by exact_mod_cast this
  linarith

theorem round2_zero : round2 0 = 0 := by decide

theorem round2_nonneg {x : ℚ} (h : 0 ≤ x) : 0 ≤ round2 x := by
  have := round2_mono h
  rwa [round2_zero] at this

theorem round2R_mono {x y : ℝ} (h : x ≤ y) : round2R x ≤ round2R y := by
  rw [round2R, round2R]
  have : ⌊x * 100 + 1 / 2⌋ ≤ ⌊y * 100 + 1 / 2⌋ := Int.floor_mono (by linarith)
  have : (⌊x * 100 + 1 / 2⌋ : ℝ) ≤ (⌊y * 100 + 1 / 2⌋ : ℝ) := by exact_mod_cast this
  linarith

/-- Rounding a rational and then casting to `ℝ` agrees with rounding the cast. -/
theorem round2R_ratCast (q : ℚ) : round2R (q : ℝ) = ((round2 q : ℚ) : ℝ) := by
  have h : ((q * 100 + 1 / 2 : ℚ) : ℝ) = (q : ℝ) * 100 + 1 / 2 := by push_cast; ring
  rw [round2R, round2_eq_floor, ← h, Rat.floor_cast]
  push_cast
  ring

theorem round2R_zero : round2R 0 = 0 := by
  have h : ((0 : ℚ) : ℝ) = (0 : ℝ) := by norm_num
  rw [← h, round2R_ratCast, round2_zero]

/-! ## Frequency and date utilities (`emiCalculator`) -/

/-- Function `getPeriodsPerYear` of `app/src/utils/emiCalculator.ts`: its map has
explicit entries for `one_time` (1) and `custom` (12). -/
def getPeriodsPerYear (frequency : PaymentFrequency) : ℚ :=
  match frequency with
  | .daily => 365
  | .weekly => 52
  | .biweekly => 26
  | .monthly => 12
  | .quarterly => 4
  | .yearly => 1
  | .one_time => 1
  | .custom => 12

/-- Function `getPeriodsPerYear` of `backend/src/utils/calculations/emiCalculator.js`:
its map has no `one_time`/`custom` keys, so `frequencyMap[frequency] || 12`
yields 12 for both. -/
def backendGetPeriodsPerYear (frequency : PaymentFrequency) : ℚ :=
  match frequency with
  | .daily => 365
  | .weekly => 52
  | .biweekly => 26
  | .monthly => 12
  | .quarterly => 4
  | .yearly => 1
  | .one_time => 12
  | .custom => 12

/-- Function `getNextPaymentDate` (identical in both implementations). `customDays`
models the optional third JS parameter; `if (customDays)` is falsy both for
an absent argument and for `0`. The `one_time` value hits the `default`
branch (+1 month). -/
def getNextPaymentDate (currentDate : Date) (frequency : PaymentFrequency)
    (customDays : Option Int := Option.none) : Date :=
  match frequency with
  | .daily => addDays currentDate 1
  | .weekly => addDays currentDate 7
  | .biweekly => addDays currentDate 14
  | .monthly => addMonths currentDate 1
  | .quarterly => addMonths currentDate 3
  | .yearly => addYears currentDate 1
  | .custom =>
    match customDays with
    | Option.some k => if k = 0 then currentDate else addDays currentDate k
    | Option.none => currentDate
  | .one_time => addMonths currentDate 1

/-! ## EMIEngine (`emiCalculator`)

The app (TypeScript) and backend (JavaScript) bodies are token-for-token
identical except that each calls its own `getPeriodsPerYear`; the common
body is therefore defined once, parameterised by the periods-per-year map,
and instantiated twice. -/

/-- Function `calculateEMI`, parameterised by the periods-per-year map.
Guards: `principal <= 0` and `numberOfInstallments <= 0` throw; a zero
(or falsy) rate short-circuits to flat division. -/
def calculateEMIWith (ppy : PaymentFrequency → ℚ) (principal annualInterestRate : ℚ)
    (numberOfInstallments : ℕ) (paymentFrequency : PaymentFrequency) :
    Except CalcError ℚ :=
  if principal ≤ 0 then .error .invalidInput
  else if numberOfInstallments = 0 then .error .invalidInput
  else if annualInterestRate = 0 then
    .ok (round2 (principal / (numberOfInstallments : ℚ)))
  else
    let ratePerPeriod := annualInterestRate / 100 / ppy paymentFrequency
    .ok (round2 (principal * ratePerPeriod * (1 + ratePerPeriod) ^ numberOfInstallments /
      ((1 + ratePerPeriod) ^ numberOfInstallments - 1)))

/-- The app's `calculateEMI`. -/
def calculateEMI : ℚ → ℚ → ℕ → PaymentFrequency → Except CalcError ℚ :=
  calculateEMIWith getPeriodsPerYear

/-- The backend's `calculateEMI`. -/
def backendCalculateEMI : ℚ → ℚ → ℕ → PaymentFrequency → Except CalcError ℚ :=
  calculateEMIWith backendGetPeriodsPerYear

/-- One row of the amortization schedule. -/
structure AmortizationEntry where
  installmentNumber : ℕ
  dueDate : Date
  emiAmount : ℚ
  principalComponent : ℚ
  interestComponent : ℚ
  remainingBalance : ℚ
deriving DecidableEq

/-- The loop body of `generateAmortizationSchedule`, recursing on the number
of remaining installments (`k + 1` remaining means the current row is the
last one iff `k = 0`). The due date advances through `getNextPaymentDate`
called, as in the source, without a `customDays` argument. -/
def scheduleAux (emi ratePerPeriod : ℚ) (paymentFrequency : PaymentFrequency) :
    ℕ → ℕ → ℚ → Date → List AmortizationEntry
  | 0, _, _, _ => []
  | k + 1, installmentNumber, remainingBalance, currentDate =>
    let interestForPeriod := remainingBalance * ratePerPeriod
    let principalForPeriod := emi - interestForPeriod
    let newBalance := remainingBalance - principalForPeriod
    let isLast := k = 0
    let adjustedPrincipal :=
      if isLast then principalForPeriod + newBalance else principalForPeriod
    let adjustedEMI := if isLast then emi + newBalance else emi
    let adjustedBalance := if isLast then 0 else newBalance
    { installmentNumber := installmentNumber
      dueDate := currentDate
      emiAmount := round2 adjustedEMI
      principalComponent := round2 adjustedPrincipal
      interestComponent := round2 interestForPeriod
      remainingBalance := round2 (max 0 adjustedBalance) } ::
      scheduleAux emi ratePerPeriod paymentFrequency k (installmentNumber + 1) newBalance
        (getNextPaymentDate currentDate paymentFrequency)

/-- Function `generateAmortizationSchedule`, parameterised by the periods-per-year
map. A thrown `calculateEMI` error propagates; `annualInterestRate ? ... : 0`
is the JS truthiness test on the rate. -/
def generateAmortizationScheduleWith (ppy : PaymentFrequency → ℚ)
    (principal annualInterestRate : ℚ) (numberOfInstallments : ℕ)
    (paymentFrequency : PaymentFrequency) (firstPaymentDate : Date) :
    Except CalcError (List AmortizationEntry) :=
  (calculateEMIWith ppy principal annualInterestRate numberOfInstallments
      paymentFrequency).map fun emi =>
    let ratePerPeriod :=
      if annualInterestRate = 0 then 0
      else annualInterestRate / 100 / ppy paymentFrequency
    scheduleAux emi ratePerPeriod paymentFrequency numberOfInstallments 1 principal
      firstPaymentDate

/-- The app's `generateAmortizationSchedule`. -/
def generateAmortizationSchedule :
    ℚ → ℚ → ℕ → PaymentFrequency → Date → Except CalcError (List AmortizationEntry) :=
  generateAmortizationScheduleWith getPeriodsPerYear

/-- The backend's `generateAmortizationSchedule`. -/
def backendGenerateAmortizationSchedule :
    ℚ → ℚ → ℕ → PaymentFrequency → Date → Except CalcError (List AmortizationEntry) :=
  generateAmortizationScheduleWith backendGetPeriodsPerYear

/-- Function `calculateNumberOfInstallments`, parameterised by the periods-per-year
map. `Math.log`/`Math.ceil` are modelled over `ℝ`. -/
noncomputable def calculateNumberOfInstallmentsWith (ppy : PaymentFrequency → ℚ)
    (principal emiAmount annualInterestRate : ℚ)
    (paymentFrequency : PaymentFrequency) : Except CalcError ℤ :=
  if emiAmount ≤ 0 ∨ principal ≤ 0 then .error .invalidInput
  else if annualInterestRate = 0 then .ok ⌈principal / emiAmount⌉
  else
    let ratePerPeriod := annualInterestRate / 100 / ppy paymentFrequency
    if emiAmount ≤ principal * ratePerPeriod then .error .emiTooLow
    else
      .ok ⌈Real.log ((emiAmount : ℝ) / ((emiAmount : ℝ) - (principal : ℝ) * (ratePerPeriod : ℝ))) /
        Real.log (1 + (ratePerPeriod : ℝ))⌉

/-- The app's `calculateNumberOfInstallments`. -/
noncomputable def calculateNumberOfInstallments :
    ℚ → ℚ → ℚ → PaymentFrequency → Except CalcError ℤ :=
  calculateNumberOfInstallmentsWith getPeriodsPerYear

/-- The backend's `calculateNumberOfInstallments`. -/
noncomputable def backendCalculateNumberOfInstallments :
    ℚ → ℚ → ℚ → PaymentFrequency → Except CalcError ℤ :=
  calculateNumberOfInstallmentsWith backendGetPeriodsPerYear

/-! ## InterestEngine (`interestCalculator`) -/

/-- Function `calculateSimpleInterest` (identical in app and backend): exact value
`P * R * (days/365) / 100`, rounded on return. -/
def calculateSimpleInterest (principal ratePerAnnum timeInDays : ℚ) :
    Except CalcError ℚ :=
  if principal ≤ 0 ∨ ratePerAnnum < 0 ∨ timeInDays < 0 then .error .invalidInput
  else
    let timeInYears := timeInDays / 365
    .ok (round2 (principal * ratePerAnnum * timeInYears / 100))

/-- The compounding-frequency map shared by both `calculateCompoundInterest`
implementations. -/
def compoundFrequencyPeriods (compoundFrequency : CompoundFrequency) : ℚ :=
  match compoundFrequency with
  | .daily => 365
  | .weekly => 52
  | .biweekly => 26
  | .monthly => 12
  | .quarterly => 4
  | .yearly => 1

/-- Function `calculateCompoundInterest` (identical in app and backend):
`A = P * (1 + r/n) ^ (n * t)` with `t = days/365` a fractional exponent, so
the computation lives in `ℝ`; returns `(totalAmount, interestAmount)`, each
rounded on return. -/
noncomputable def calculateCompoundInterest (principal ratePerAnnum timeInDays : ℚ)
    (compoundFrequency : CompoundFrequency) : Except CalcError (ℝ × ℝ) :=
  if principal ≤ 0 ∨ ratePerAnnum < 0 ∨ timeInDays < 0 then .error .invalidInput
  else
    let rateDecimal : ℝ := (ratePerAnnum : ℝ) / 100
    let timeInYears : ℝ := (timeInDays : ℝ) / 365
    let n : ℝ := (compoundFrequencyPeriods compoundFrequency : ℝ)
    let totalAmount : ℝ := (principal : ℝ) * (1 + rateDecimal / n) ^ (n * timeInYears)
    .ok (round2R totalAmount, round2R (totalAmount - (principal : ℝ)))

/-- Function `calculatePeriodInterest` of the app (`interestCalculator.ts`): the day
count of two date-only dates is their epoch-day difference (the `ceil` of
the millisecond quotient is exact here); returns 0 for a non-positive span
and also — the TypeScript `else if (interestType === 'compound' &&
compoundFrequency)` — when the type is `compound` but no frequency is
supplied. -/
noncomputable def calculatePeriodInterest (principal ratePerAnnum : ℚ)
    (startDate endDate : Date) (interestType : InterestType)
    (compoundFrequency : Option CompoundFrequency) : Except CalcError ℝ :=
  let timeInDays : ℤ := endDate.toEpochDay - startDate.toEpochDay
  if timeInDays ≤ 0 then .ok 0
  else if interestType = .simple then
    (calculateSimpleInterest principal ratePerAnnum (timeInDays : ℚ)).map
      fun q => ((q : ℚ) : ℝ)
  else
    match interestType, compoundFrequency with
    | .compound, Option.some cf =>
      (calculateCompoundInterest principal ratePerAnnum (timeInDays : ℚ) cf).map Prod.snd
    | _, _ => .ok 0

/-- Function `calculateTotalAmountDue` of the app: early return for `none` type or
falsy rate; otherwise day count from the two dates, interest from the
matching engine (left at 0 when the type is `compound` without a
frequency), and both outputs rounded on return. -/
noncomputable def calculateTotalAmountDue (principalAmount interestRate : ℚ)
    (issueDate dueDate : Date) (interestType : InterestType)
    (compoundFrequency : Option CompoundFrequency) : Except CalcError (ℝ × ℝ) :=
  if interestType = .none ∨ interestRate = 0 then
    .ok ((principalAmount : ℝ), 0)
  else
    let timeInDays : ℤ := dueDate.toEpochDay - issueDate.toEpochDay
    if interestType = .simple then
      (calculateSimpleInterest principalAmount interestRate (timeInDays : ℚ)).map fun i =>
        (round2R ((principalAmount : ℝ) + ((i : ℚ) : ℝ)), round2R ((i : ℚ) : ℝ))
    else
      match interestType, compoundFrequency with
      | .compound, Option.some cf =>
        (calculateCompoundInterest principalAmount interestRate (timeInDays : ℚ) cf).map
          fun res => (round2R ((principalAmount : ℝ) + res.2), round2R res.2)
      | _, _ => .ok (round2R (principalAmount : ℝ), round2R 0)

/-! ## PaymentAllocator (`calculatePaymentBreakdown`) -/

/-- The `{ principalPortion, interestPortion }` record returned by
`calculatePaymentBreakdown`. -/
structure PaymentBreakdown where
  principalPortion : ℚ
  interestPortion : ℚ
deriving DecidableEq

/-- Function `calculatePaymentBreakdown` (identical in app and backend):
interest-first allocation with the principal portion clamped at the
outstanding principal, both portions rounded on return. -/
def calculatePaymentBreakdown (paymentAmount accruedInterest outstandingPrincipal : ℚ) :
    PaymentBreakdown :=
  let interestPortion := min paymentAmount accruedInterest
  let principalPortion := max 0 (paymentAmount - interestPortion)
  let principalPortion :=
    if outstandingPrincipal < principalPortion then outstandingPrincipal
    else principalPortion
  { principalPortion := round2 principalPortion
    interestPortion := round2 interestPortion }

/-- Function `calculateAccruedInterest` of the app. The source signature is
`currentDate = new Date()`: an optional parameter that silently defaults to
the system clock. The ambient clock value is made explicit here as the
`systemNow` argument, consumed exactly when `currentDate` is absent. -/
noncomputable def calculateAccruedInterest (principalAmount interestRate : ℚ)
    (lastCalculationDate : Date) (currentDate : Option Date)
    (interestType : InterestType) (compoundFrequency : Option CompoundFrequency)
    (systemNow : Date) : Except CalcError ℝ :=
  calculatePeriodInterest principalAmount interestRate lastCalculationDate
    (currentDate.getD systemNow) interestType compoundFrequency

/-- Sum of the `principalComponent` column of a schedule. -/
def sumPrincipal (s : List AmortizationEntry) : ℚ :=
  (s.map AmortizationEntry.principalComponent).sum

/-! ## Structural lemmas about the schedule loop -/

theorem sumPrincipal_cons (e : AmortizationEntry) (l : List AmortizationEntry) :
    sumPrincipal (e :: l) = e.principalComponent + sumPrincipal l := by
  simp [sumPrincipal]

theorem scheduleAux_one (emi r : ℚ) (f : PaymentFrequency) (idx : ℕ) (B : ℚ) (d : Date) :
    scheduleAux emi r f 1 idx B d =
      [{ installmentNumber := idx
         dueDate := d
         emiAmount := round2 (emi + (B - (emi - B * r)))
         principalComponent := round2 ((emi - B * r) + (B - (emi - B * r)))
         interestComponent := round2 (B * r)
         remainingBalance := round2 (max 0 0) }] := by
  simp [scheduleAux]

theorem scheduleAux_succ (emi r : ℚ) (f : PaymentFrequency) (k idx : ℕ) (B : ℚ) (d : Date) :
    scheduleAux emi r f (k + 2) idx B d =
      { installmentNumber := idx
        dueDate := d
        emiAmount := round2 emi
        principalComponent := round2 (emi - B * r)
        interestComponent := round2 (B * r)
        remainingBalance := round2 (max 0 (B - (emi - B * r))) } ::
      scheduleAux emi r f (k + 1) (idx + 1) (B - (emi - B * r))
        (getNextPaymentDate d f) := by
  simp [scheduleAux]

theorem scheduleAux_cons_shape (emi r : ℚ) (f : PaymentFrequency) (k idx : ℕ) (B : ℚ)
    (d : Date) : ∃ x l, scheduleAux emi r f (k + 1) idx B d = x :: l := by
  cases k with
  | zero => exact ⟨_, _, scheduleAux_one emi r f idx B d⟩
  | succ k => exact ⟨_, _, scheduleAux_succ emi r f k idx B d⟩

/-- The unrounded principal components of a `k`-installment run starting at
balance `B` telescope to `B` exactly, so the rounded column sum is within
`k` half-cents of `B`. -/
theorem scheduleAux_sumPrincipal (emi r : ℚ) (f : PaymentFrequency) :
    ∀ (k idx : ℕ) (B : ℚ) (d : Date),
      |sumPrincipal (scheduleAux emi r f (k + 1) idx B d) - B| ≤ (k + 1 : ℚ) * (1 / 200) := by
  intro k
  induction k with
  | zero =>
    intro idx B d
    rw [scheduleAux_one]
    have hB : emi - B * r + (B - (emi - B * r)) = B := by ring
    simp only [sumPrincipal, List.map, List.sum_cons, List.sum_nil, add_zero, hB]
    have := abs_round2_sub_le B
    linarith [this, abs_nonneg (round2 B - B)]
  | succ k ih =>
    intro idx B d
    rw [scheduleAux_succ, sumPrincipal_cons]
    have h1 := ih (idx + 1) (B - (emi - B * r)) (getNextPaymentDate d f)
    have h2 := abs_round2_sub_le (emi - B * r)
    have key : round2 (emi - B * r) +
        sumPrincipal (scheduleAux emi r f (k + 1) (idx + 1) (B - (emi - B * r))
          (getNextPaymentDate d f)) - B =
        (round2 (emi - B * r) - (emi - B * r)) +
        (sumPrincipal (scheduleAux emi r f (k + 1) (idx + 1) (B - (emi - B * r))
          (getNextPaymentDate d f)) - (B - (emi - B * r))) := by ring
    rw [key]
    calc |(round2 (emi - B * r) - (emi - B * r)) +
        (sumPrincipal (scheduleAux emi r f (k + 1) (idx + 1) (B - (emi - B * r))
          (getNextPaymentDate d f)) - (B - (emi - B * r)))| ≤
        |round2 (emi - B * r) - (emi - B * r)| +
        |sumPrincipal (scheduleAux emi r f (k + 1) (idx + 1) (B - (emi - B * r))
          (getNextPaymentDate d f)) - (B - (emi - B * r))| := abs_add _ _
      _ ≤ 1 / 200 + (k + 1 : ℚ) * (1 / 200) := add_le_add h2 h1
      _ = ((k + 1 : ℕ) + 1 : ℚ) * (1 / 200) := by push_cast; ring

/-- The last entry of a non-empty schedule run reports a remaining balance
of exactly 0. -/
theorem scheduleAux_getLast_balance (emi r : ℚ) (f : PaymentFrequency) :
    ∀ (k idx : ℕ) (B : ℚ) (d : Date) (e : AmortizationEntry),
      (scheduleAux emi r f (k + 1) idx B d).getLast? = Option.some e →
      e.remainingBalance = 0 := by
  intro k
  induction k with
  | zero =>
    intro idx B d e h
    rw [scheduleAux_one] at h
    simp only [List.getLast?_singleton, Option.some.injEq] at h
    rw [← h]
    simp only [max_self]
    exact round2_zero
  | succ k ih =>
    intro idx B d e h
    rw [scheduleAux_succ] at h
    obtain ⟨x, l, hl⟩ := scheduleAux_cons_shape emi r f k (idx + 1) (B - (emi - B * r))
      (getNextPaymentDate d f)
    rw [hl, List.getLast?_cons_cons, ← hl] at h
    exact ih (idx + 1) (B - (emi - B * r)) (getNextPaymentDate d f) e h

/-- Every reported remaining balance is clamped: `round2 (max 0 _)` is
non-negative. -/
theorem scheduleAux_balance_nonneg (emi r : ℚ) (f : PaymentFrequency) :
    ∀ (k idx : ℕ) (B : ℚ) (d : Date) (e : AmortizationEntry),
      e ∈ scheduleAux emi r f k idx B d → 0 ≤ e.remainingBalance := by
  intro k
  induction k with
  | zero => intro idx B d e he; simp [scheduleAux] at he
  | succ k ih =>
    intro idx B d e he
    simp only [scheduleAux, List.mem_cons] at he
    rcases he with rfl | he
    · exact round2_nonneg (le_max_left 0 _)
    · exact ih _ _ _ _ he

theorem scheduleAux_head_dueDate (emi r : ℚ) (f : PaymentFrequency) (k idx : ℕ) (B : ℚ)
    (d : Date) (e : AmortizationEntry)
    (h : (scheduleAux emi r f (k + 1) idx B d).head? = Option.some e) : e.dueDate = d := by
  cases k with
  | zero => rw [scheduleAux_one] at h; simp at h; rw [← h]
  | succ k => rw [scheduleAux_succ] at h; simp at h; rw [← h]

/-- Successive due dates are linked by `getNextPaymentDate` (called without
a custom day interval, as in the source). -/
theorem scheduleAux_chain (emi r : ℚ) (f : PaymentFrequency) :
    ∀ (k idx : ℕ) (B : ℚ) (d : Date),
      (scheduleAux emi r f k idx B d).Chain'
        (fun a b => b.dueDate = getNextPaymentDate a.dueDate f) := by
  intro k
  induction k with
  | zero => intro idx B d; simp [scheduleAux]
  | succ k ih =>
    intro idx B d
    cases k with
    | zero => rw [scheduleAux_one]; exact List.chain'_singleton _
    | succ k =>
      rw [scheduleAux_succ]
      obtain ⟨x, l, hl⟩ := scheduleAux_cons_shape emi r f k (idx + 1) (B - (emi - B * r))
        (getNextPaymentDate d f)
      rw [hl, List.chain'_cons]
      constructor
      · have hx : (scheduleAux emi r f (k + 1) (idx + 1) (B - (emi - B * r))
            (getNextPaymentDate d f)).head? = Option.some x := by rw [hl]; rfl
        exact scheduleAux_head_dueDate emi r f k (idx + 1) (B - (emi - B * r))
          (getNextPaymentDate d f) x hx
      · rw [← hl]
        exact ih (idx + 1) (B - (emi - B * r)) (getNextPaymentDate d f)

/-- The full-precision running balance of the schedule loop: the balance
entering installment `i` (0-based). The decrement is never rounded in the
source, and it is never rounded here. -/
def runningBalance (emi ratePerPeriod B : ℚ) : ℕ → ℚ
  | 0 => B
  | i + 1 =>
    runningBalance emi ratePerPeriod B i -
      (emi - runningBalance emi ratePerPeriod B i * ratePerPeriod)

theorem runningBalance_step (emi r B : ℚ) (j : ℕ) :
    runningBalance emi r (B - (emi - B * r)) j = runningBalance emi r B (j + 1) := by
  induction j with
  | zero => rfl
  | succ j ih => simp only [runningBalance, ih]

/-- Closed form of the row the schedule loop pushes at 0-based index `i` of
a `n`-installment run beginning at installment number `idx` and balance `B`:
each monetary field is a single `round2` of an expression in the
full-precision running balance. -/
def unrolledEntry (emi ratePerPeriod B : ℚ) (f : PaymentFrequency) (d : Date)
    (idx n i : ℕ) : AmortizationEntry :=
  let b := runningBalance emi ratePerPeriod B i
  let pc := emi - b * ratePerPeriod
  let nb := b - pc
  { installmentNumber := idx + i
    dueDate := (fun x => getNextPaymentDate x f)^[i] d
    emiAmount := round2 (if i + 1 = n then emi + nb else emi)
    principalComponent := round2 (if i + 1 = n then pc + nb else pc)
    interestComponent := round2 (b * ratePerPeriod)
    remainingBalance := round2 (max 0 (if i + 1 = n then 0 else nb)) }

/-- Every row of a schedule run is its `unrolledEntry` closed form: the
state threaded through the loop is the unrounded `runningBalance`, and each
pushed field is rounded exactly once. -/
theorem scheduleAux_get (emi r : ℚ) (f : PaymentFrequency) :
    ∀ (k i idx : ℕ) (B : ℚ) (d : Date), i < k →
      (scheduleAux emi r f k idx B d).get? i =
        Option.some (unrolledEntry emi r B f d idx k i) := by
  intro k
  induction k with
  | zero => intro i idx B d hik; exact absurd hik (Nat.not_lt_zero i)
  | succ k ih =>
    intro i idx B d hik
    cases i with
    | zero =>
      have hc : (0 + 1 = k + 1) = (k = 0) := propext ⟨fun h => by omega, fun h => by omega⟩
      simp only [scheduleAux, List.get?_cons_zero, unrolledEntry, runningBalance,
        Function.iterate_zero_apply, Nat.add_zero, hc]
    | succ j =>
      have hjk : j < k := by omega
      have hidx : idx + 1 + j = idx + (j + 1) := by omega
      have hc : (j + 1 + 1 = k + 1) = (j + 1 = k) := propext ⟨fun h => by omega, fun h => by omega⟩
      simp only [scheduleAux, List.get?_cons_succ]
      rw [ih j (idx + 1) (B - (emi - B * r)) (getNextPaymentDate d f) hjk]
      simp only [unrolledEntry, runningBalance_step, Function.iterate_succ_apply, hidx, hc]

/-- Valid inputs make `calculateEMI` succeed. -/
theorem calculateEMIWith_isOk (ppy : PaymentFrequency → ℚ) (p r : ℚ) (n : ℕ)
    (f : PaymentFrequency) (hp : 0 < p) (hn : n ≠ 0) :
    ∃ emi, calculateEMIWith ppy p r n f = .ok emi := by
  unfold calculateEMIWith
  rw [if_neg (not_le.mpr hp), if_neg hn]
  by_cases hr : r = 0
  · exact ⟨_, by rw [if_pos hr]⟩
  · exact ⟨_, by rw [if_neg hr]⟩

/-- The bodies of the two `calculateEMI` implementations depend on the
periods-per-year map only through its value at the given frequency. -/
theorem calculateEMIWith_congr {p1 p2 : PaymentFrequency → ℚ} (p r : ℚ) (n : ℕ)
    (f : PaymentFrequency) (h : p1 f = p2 f) :
    calculateEMIWith p1 p r n f = calculateEMIWith p2 p r n f := by
  unfold calculateEMIWith
  rw [h]

theorem generateAmortizationScheduleWith_congr {p1 p2 : PaymentFrequency → ℚ} (p r : ℚ)
    (n : ℕ) (f : PaymentFrequency) (d : Date) (h : p1 f = p2 f) :
    generateAmortizationScheduleWith p1 p r n f d =
      generateAmortizationScheduleWith p2 p r n f d := by
  unfold generateAmortizationScheduleWith
  rw [h, calculateEMIWith_congr p r n f h]

theorem calculateNumberOfInstallmentsWith_congr {p1 p2 : PaymentFrequency → ℚ}
    (p e r : ℚ) (f : PaymentFrequency) (h : p1 f = p2 f) :
    calculateNumberOfInstallmentsWith p1 p e r f =
      calculateNumberOfInstallmentsWith p2 p e r f := by
  unfold calculateNumberOfInstallmentsWith
  rw [h]

/-! ## Cent-valued rationals -/

/-- A rational that is a whole number of cents (an exact 2-decimal value),
the granularity at which `round2` is the identity. -/
def IsCentValue (q : ℚ) : Prop := (q * 100).den = 1

instance (q : ℚ) : Decidable (IsCentValue q) :=
  inferInstanceAs (Decidable ((q * 100).den = 1))

theorem IsCentValue.round2_self {q : ℚ} (h : IsCentValue q) : round2 q = q := by
  have hk : ((q * 100).num : ℚ) = q * 100 := (Rat.den_eq_one_iff _).1 h
  have h1 : ⌊q * 100 + 1 / 2⌋ = (q * 100).num := by
    rw [← hk, Int.floor_int_add]
    norm_num
  have h2 : round2 q = ((q * 100).num : ℚ) / 100 := by rw [round2_eq_floor, h1]
  rw [h2, hk]
  exact mul_div_cancel_right₀ q (by norm_num)

theorem IsCentValue.min {a b : ℚ} (ha : IsCentValue a) (hb : IsCentValue b) :
    IsCentValue (Min.min a b) := by
  rcases le_total a b with h | h
  · rwa [min_eq_left h]
  · rwa [min_eq_right h]

theorem IsCentValue.max {a b : ℚ} (ha : IsCentValue a) (hb : IsCentValue b) :
    IsCentValue (Max.max a b) := by
  rcases le_total a b with h | h
  · rwa [max_eq_right h]
  · rwa [max_eq_left h]

theorem IsCentValue.sub {a b : ℚ} (ha : IsCentValue a) (hb : IsCentValue b) :
    IsCentValue (a - b) := by
  have hka : ((a * 100).num : ℚ) = a * 100 := (Rat.den_eq_one_iff _).1 ha
  have hkb : ((b * 100).num : ℚ) = b * 100 := (Rat.den_eq_one_iff _).1 hb
  have h : (a - b) * 100 = (((a * 100).num - (b * 100).num : ℤ) : ℚ) := by
    push_cast
    rw [hka, hkb]
    ring
  unfold IsCentValue
  rw [h]
  exact Rat.intCast_den _

theorem isCentValue_zero : IsCentValue 0 := by decide

/-! ## Claims about the schedule invariants (C1, C9) -/

/-- Claim C1, amended: for positive principal, positive installment count
and non-negative annual rate, the schedule is produced; the sum of the
rounded `principalComponent` column equals the original principal to within
half a cent per installment (the unrounded components telescope to the
principal exactly); and the final entry's `remainingBalance` is exactly 0.
The original claim's fixed one-cent tolerance fails for as few as five
installments, see the counterexample. -/
theorem schedule_sum_bound_and_final_balance (principal annualInterestRate : ℚ)
    (n : ℕ) (f : PaymentFrequency) (d : Date)
    (hp : 0 < principal) (hr : 0 ≤ annualInterestRate) (hn : 0 < n) :
    ∃ s, generateAmortizationSchedule principal annualInterestRate n f d = .ok s ∧
      |sumPrincipal s - principal| ≤ (n : ℚ) * (1 / 200) ∧
      ∀ e, s.getLast? = Option.some e → e.remainingBalance = 0 := by
  obtain ⟨emi, hemi⟩ :=
    calculateEMIWith_isOk getPeriodsPerYear principal annualInterestRate n f hp hn.ne'
  obtain ⟨k, rfl⟩ : ∃ k, n = k + 1 := ⟨n - 1, (Nat.succ_pred_eq_of_pos hn).symm⟩
  refine ⟨scheduleAux emi
      (if annualInterestRate = 0 then 0
       else annualInterestRate / 100 / getPeriodsPerYear f) f (k + 1) 1 principal d,
    ?_, ?_, ?_⟩
  · simp only [generateAmortizationSchedule, generateAmortizationScheduleWith, hemi,
      Except.map]
  · have h := scheduleAux_sumPrincipal emi
      (if annualInterestRate = 0 then 0
       else annualInterestRate / 100 / getPeriodsPerYear f) f k 1 principal d
    have hc : ((k : ℚ) + 1) * (1 / 200) = ((k + 1 : ℕ) : ℚ) * (1 / 200) := by
      push_cast
      ring
    rwa [hc] at h
  · intro e he
    exact scheduleAux_getLast_balance emi _ f k 1 principal d e he

/-- Witness for `schedule_sum_bound_and_final_balance` at the spec's own
scenario (100000 at 12 % over 12 monthly installments). -/
theorem schedule_sum_bound_and_final_balance_witness :
    (0 : ℚ) < 100000 ∧ (0 : ℚ) ≤ 12 ∧ 0 < 12 ∧
    (∃ s, generateAmortizationSchedule 100000 12 12 .monthly ⟨2025, 0, 15⟩ = .ok s ∧
      |sumPrincipal s - 100000| ≤ (12 : ℚ) * (1 / 200) ∧
      ∀ e, s.getLast? = Option.some e → e.remainingBalance = 0) :=
  ⟨by decide, by decide, by decide,
    schedule_sum_bound_and_final_balance 100000 12 12 .monthly ⟨2025, 0, 15⟩
      (by decide) (by decide) (by decide)⟩

/-- Claim C1 fails as stated: for principal 4.64, annual rate 27 %, 5
monthly installments, the rounded principal components sum to 4.66 — two
cents above the principal, outside the claimed one-cent tolerance. -/
theorem schedule_sum_one_cent_refuted :
    (generateAmortizationSchedule (116 / 25) 27 5 .monthly ⟨2024, 0, 1⟩).map sumPrincipal
      = .ok (233 / 50) ∧ ¬ |(233 / 50 : ℚ) - 116 / 25| ≤ 1 / 100 := by
  constructor
  · decide
  · decide

/-- Claim C9: every entry of a generated schedule reports a non-negative
remaining balance — the value pushed is `round2 (max 0 _)`, clamped at zero. -/
theorem schedule_balances_nonneg (principal annualInterestRate : ℚ) (n : ℕ)
    (f : PaymentFrequency) (d : Date) (hp : 0 < principal) (hn : 0 < n) :
    ∃ s, generateAmortizationSchedule principal annualInterestRate n f d = .ok s ∧
      ∀ e ∈ s, 0 ≤ e.remainingBalance := by
  obtain ⟨emi, hemi⟩ :=
    calculateEMIWith_isOk getPeriodsPerYear principal annualInterestRate n f hp hn.ne'
  refine ⟨scheduleAux emi
      (if annualInterestRate = 0 then 0
       else annualInterestRate / 100 / getPeriodsPerYear f) f n 1 principal d, ?_, ?_⟩
  · simp only [generateAmortizationSchedule, generateAmortizationScheduleWith, hemi,
      Except.map]
  · intro e he
    exact scheduleAux_balance_nonneg emi _ f n 1 principal d e he

/-- Witness for `schedule_balances_nonneg`. -/
theorem schedule_balances_nonneg_witness :
    (0 : ℚ) < 5000 ∧ 0 < 7 ∧
    (∃ s, generateAmortizationSchedule 5000 18 7 .weekly ⟨2024, 5, 10⟩ = .ok s ∧
      ∀ e ∈ s, 0 ≤ e.remainingBalance) :=
  ⟨by decide, by decide,
    schedule_balances_nonneg 5000 18 7 .weekly ⟨2024, 5, 10⟩ (by decide) (by decide)⟩

/-! ## Claim C2: payment allocation -/

/-- Claim C2, amended: for cent-valued inputs (every monetary quantity the
callers pass is an exact 2-decimal amount) with non-negative accrued
interest and outstanding principal, `calculatePaymentBreakdown` satisfies
the interest-first allocation laws: the interest portion is
`min(payment, accrued)`, the principal portion is capped by the outstanding
principal, and the two portions sum to `min(payment, accrued + outstanding)`.
For inputs of finer granularity the returned portions are additionally
rounded to cents, which breaks the exact equalities (see the
counterexample). -/
theorem paymentBreakdown_cent_properties (p a o : ℚ)
    (hp : IsCentValue p) (ha : IsCentValue a) (ho : IsCentValue o)
    (ha0 : 0 ≤ a) (ho0 : 0 ≤ o) :
    (calculatePaymentBreakdown p a o).interestPortion = min p a ∧
    (calculatePaymentBreakdown p a o).principalPortion ≤ o ∧
    (calculatePaymentBreakdown p a o).interestPortion +
      (calculatePaymentBreakdown p a o).principalPortion = min p (a + o) := by
  have hmin : IsCentValue (min p a) := hp.min ha
  have hsub : IsCentValue (p - min p a) := hp.sub hmin
  have hmax : IsCentValue (max 0 (p - min p a)) := isCentValue_zero.max hsub
  have hi : (calculatePaymentBreakdown p a o).interestPortion = min p a := by
    simp only [calculatePaymentBreakdown]
    exact hmin.round2_self
  have hpr : (calculatePaymentBreakdown p a o).principalPortion =
      if o < max 0 (p - min p a) then o else max 0 (p - min p a) := by
    simp only [calculatePaymentBreakdown]
    split
    · exact ho.round2_self
    · exact hmax.round2_self
  refine ⟨hi, ?_, ?_⟩
  · rw [hpr]
    split
    · exact le_refl o
    · next hif => exact le_of_not_lt hif
  · rw [hi, hpr]
    rcases le_total p a with hpa | hpa
    · rw [min_eq_left hpa, sub_self, max_self, if_neg (not_lt.mpr ho0),
        min_eq_left (by linarith), add_zero]
    · rw [min_eq_right hpa, max_eq_right (by linarith : (0 : ℚ) ≤ p - a)]
      split
      · next hif => rw [min_eq_right (by linarith)]
      · next hif =>
        rw [min_eq_left (by linarith [not_lt.mp hif])]
        ring

/-- Witness for `paymentBreakdown_cent_properties` at the spec's scenario
(payment 1000, accrued 500, outstanding 10000). -/
theorem paymentBreakdown_cent_properties_witness :
    IsCentValue 1000 ∧ IsCentValue 500 ∧ IsCentValue 10000 ∧
    (0 : ℚ) ≤ 500 ∧ (0 : ℚ) ≤ 10000 ∧
    ((calculatePaymentBreakdown 1000 500 10000).interestPortion = min 1000 500 ∧
     (calculatePaymentBreakdown 1000 500 10000).principalPortion ≤ 10000 ∧
     (calculatePaymentBreakdown 1000 500 10000).interestPortion +
       (calculatePaymentBreakdown 1000 500 10000).principalPortion = min 1000 (500 + 10000)) :=
  ⟨by decide, by decide, by decide, by decide, by decide,
    paymentBreakdown_cent_properties 1000 500 10000 (by decide) (by decide) (by decide)
      (by decide) (by decide)⟩

/-- Claim C2 fails as stated for inputs finer than one cent: a payment of
0.005 against accrued interest 1 yields a returned interest portion of 0.01
(the rounded value), not `min(0.005, 1) = 0.005`. -/
theorem paymentBreakdown_min_refuted :
    (calculatePaymentBreakdown (1 / 200) 1 1).interestPortion ≠ min (1 / 200 : ℚ) 1 := by
  decide

/-! ## Claim C6: app/backend equivalence -/

/-- Claim C6 fails as stated: the backend frequency map has no `one_time`
key, so `frequencyMap[frequency] || 12` yields 12 where the app map has 1,
and the two `calculateEMI` implementations disagree on `one_time` loans
(1120 vs 1010 for 1000 at 12 % in one installment). -/
theorem periods_one_time_refuted :
    getPeriodsPerYear .one_time = 1 ∧ backendGetPeriodsPerYear .one_time = 12 ∧
    calculateEMI 1000 12 1 .one_time = .ok 1120 ∧
    backendCalculateEMI 1000 12 1 .one_time = .ok 1010 ∧
    calculateEMI 1000 12 1 .one_time ≠ backendCalculateEMI 1000 12 1 .one_time := by
  refine ⟨by decide, by decide, by decide, by decide, by decide⟩

/-- Claim C6, amended: the app and backend implementations agree on every
shared operation for every frequency except `one_time`, where the backend's
missing map entry makes `getPeriodsPerYear` (and everything downstream)
differ. -/
theorem app_backend_agree_except_one_time (f : PaymentFrequency)
    (hf : f ≠ .one_time) :
    getPeriodsPerYear f = backendGetPeriodsPerYear f ∧
    (∀ (p r : ℚ) (n : ℕ), calculateEMI p r n f = backendCalculateEMI p r n f) ∧
    (∀ (p r : ℚ) (n : ℕ) (d : Date),
      generateAmortizationSchedule p r n f d = backendGenerateAmortizationSchedule p r n f d) ∧
    (∀ p e r : ℚ,
      calculateNumberOfInstallments p e r f = backendCalculateNumberOfInstallments p e r f) := by
  have h : getPeriodsPerYear f = backendGetPeriodsPerYear f := by
    cases f
    case one_time => exact absurd rfl hf
    all_goals rfl
  exact ⟨h, fun p r n => calculateEMIWith_congr p r n f h,
    fun p r n d => generateAmortizationScheduleWith_congr p r n f d h,
    fun p e r => calculateNumberOfInstallmentsWith_congr p e r f h⟩

/-- Witness for `app_backend_agree_except_one_time` at the `monthly`
frequency. -/
theorem app_backend_agree_except_one_time_witness :
    PaymentFrequency.monthly ≠ PaymentFrequency.one_time ∧
    (getPeriodsPerYear .monthly = backendGetPeriodsPerYear .monthly ∧
     (∀ (p r : ℚ) (n : ℕ),
       calculateEMI p r n .monthly = backendCalculateEMI p r n .monthly) ∧
     (∀ (p r : ℚ) (n : ℕ) (d : Date),
       generateAmortizationSchedule p r n .monthly d =
         backendGenerateAmortizationSchedule p r n .monthly d) ∧
     (∀ p e r : ℚ,
       calculateNumberOfInstallments p e r .monthly =
         backendCalculateNumberOfInstallments p e r .monthly)) :=
  ⟨by decide, app_backend_agree_except_one_time .monthly (by decide)⟩

/-! ## Claim C7: due-date advancement -/

/-- Claim C7 fails as stated: the schedule generator calls
`getNextPaymentDate` without the companion day-interval, so for a `custom`
frequency the due date never advances — both entries of this 2-installment
schedule fall on the first payment date, not `+N days` apart. -/
theorem custom_schedule_dates_refuted :
    (generateAmortizationSchedule 100 0 2 .custom ⟨2024, 0, 1⟩).map
        (List.map AmortizationEntry.dueDate) =
      .ok [⟨2024, 0, 1⟩, ⟨2024, 0, 1⟩] ∧
    getNextPaymentDate ⟨2024, 0, 1⟩ .custom = (⟨2024, 0, 1⟩ : Date) ∧
    getNextPaymentDate ⟨2024, 0, 1⟩ .custom (Option.some 5) = addDays ⟨2024, 0, 1⟩ 5 ∧
    addDays ⟨2024, 0, 1⟩ 5 ≠ (⟨2024, 0, 1⟩ : Date) := by
  refine ⟨by decide, by decide, by decide, by decide⟩

/-- Claim C7, amended: successive due dates are linked by the frequency's
date-increment rule as implemented — daily +1 day, weekly +7, biweekly +14,
monthly +1 calendar month, quarterly +3 months, yearly +1 year — but
`one_time` advances by +1 month (the switch's `default`), and `custom` does
not advance at all because the generator never passes the companion
day-interval to `getNextPaymentDate`. -/
theorem schedule_date_advance_rules (principal annualInterestRate : ℚ) (n : ℕ)
    (f : PaymentFrequency) (d0 : Date) (hp : 0 < principal) (hn : 0 < n) :
    (∃ s, generateAmortizationSchedule principal annualInterestRate n f d0 = .ok s ∧
      s.Chain' (fun a b => b.dueDate = getNextPaymentDate a.dueDate f) ∧
      ∀ e, s.head? = Option.some e → e.dueDate = d0) ∧
    (∀ d : Date,
      getNextPaymentDate d .daily = addDays d 1 ∧
      getNextPaymentDate d .weekly = addDays d 7 ∧
      getNextPaymentDate d .biweekly = addDays d 14 ∧
      getNextPaymentDate d .monthly = addMonths d 1 ∧
      getNextPaymentDate d .quarterly = addMonths d 3 ∧
      getNextPaymentDate d .yearly = addYears d 1 ∧
      getNextPaymentDate d .one_time = addMonths d 1 ∧
      getNextPaymentDate d .custom = d) := by
  constructor
  · obtain ⟨emi, hemi⟩ :=
      calculateEMIWith_isOk getPeriodsPerYear principal annualInterestRate n f hp hn.ne'
    obtain ⟨k, rfl⟩ : ∃ k, n = k + 1 := ⟨n - 1, (Nat.succ_pred_eq_of_pos hn).symm⟩
    refine ⟨scheduleAux emi
        (if annualInterestRate = 0 then 0
         else annualInterestRate / 100 / getPeriodsPerYear f) f (k + 1) 1 principal d0,
      ?_, ?_, ?_⟩
    · simp only [generateAmortizationSchedule, generateAmortizationScheduleWith, hemi,
        Except.map]
    · exact scheduleAux_chain emi _ f (k + 1) 1 principal d0
    · intro e he
      exact scheduleAux_head_dueDate emi _ f k 1 principal d0 e he
  · intro d
    exact ⟨rfl, rfl, rfl, rfl, rfl, rfl, rfl, rfl⟩

/-! ## Branch lemmas for the interest engine -/

theorem periodInterest_simple_eq (p r : ℚ) (s e : Date) (q : ℚ)
    (hd : 0 < e.toEpochDay - s.toEpochDay)
    (hsi : calculateSimpleInterest p r ((e.toEpochDay - s.toEpochDay : ℤ) : ℚ) = .ok q) :
    calculatePeriodInterest p r s e .simple Option.none = .ok ((q : ℝ)) := by
  simp only [calculatePeriodInterest]
  rw [if_neg (not_le.mpr hd), if_pos trivial, hsi]
  rfl

theorem periodInterest_compound_noFreq (p r : ℚ) (s e : Date) :
    calculatePeriodInterest p r s e .compound Option.none = .ok 0 := by
  simp only [calculatePeriodInterest]
  by_cases hd : e.toEpochDay - s.toEpochDay ≤ 0
  · rw [if_pos hd]
  · rw [if_neg hd, if_neg (by decide : ¬ (InterestType.compound = InterestType.simple))]

theorem totalAmountDue_compound_noFreq (p r : ℚ) (s e : Date) (hr : r ≠ 0) :
    calculateTotalAmountDue p r s e .compound Option.none =
      .ok (((round2 p : ℚ) : ℝ), 0) := by
  have h1 : ¬ (InterestType.compound = InterestType.none ∨ r = 0) := by
    rintro (h | h)
    · exact absurd h (by decide)
    · exact hr h
  simp only [calculateTotalAmountDue]
  rw [if_neg h1, if_neg (by decide : ¬ (InterestType.compound = InterestType.simple))]
  rw [round2R_ratCast, round2R_zero]

theorem compoundInterest_ok_eq (p r t : ℚ) (cf : CompoundFrequency)
    (hguard : ¬ (p ≤ 0 ∨ r < 0 ∨ t < 0)) :
    calculateCompoundInterest p r t cf =
      .ok (round2R ((p : ℝ) *
            (1 + (r : ℝ) / 100 / ((compoundFrequencyPeriods cf : ℚ) : ℝ)) ^
            (((compoundFrequencyPeriods cf : ℚ) : ℝ) * ((t : ℝ) / 365))),
          round2R ((p : ℝ) *
            (1 + (r : ℝ) / 100 / ((compoundFrequencyPeriods cf : ℚ) : ℝ)) ^
            (((compoundFrequencyPeriods cf : ℚ) : ℝ) * ((t : ℝ) / 365)) - (p : ℝ))) := by
  simp only [calculateCompoundInterest]
  rw [if_neg hguard]

theorem totalAmountDue_simple_eq (p r : ℚ) (issue due : Date) (q : ℚ) (hr : r ≠ 0)
    (hsi : calculateSimpleInterest p r ((due.toEpochDay - issue.toEpochDay : ℤ) : ℚ) = .ok q) :
    calculateTotalAmountDue p r issue due .simple Option.none =
      .ok (((round2 (p + q) : ℚ) : ℝ), ((round2 q : ℚ) : ℝ)) := by
  have h1 : ¬ (InterestType.simple = InterestType.none ∨ r = 0) := by
    rintro (h | h)
    · exact absurd h (by decide)
    · exact hr h
  simp only [calculateTotalAmountDue]
  rw [if_neg h1, if_pos trivial, hsi]
  show Except.ok (round2R ((p : ℝ) + ((q : ℚ) : ℝ)), round2R ((q : ℚ) : ℝ)) = _
  rw [← Rat.cast_add, round2R_ratCast, round2R_ratCast]

/-! ## Claim C5: determinism and the implicit clock default -/

/-- Claim C5 fails as stated: `calculateAccruedInterest` declares
`currentDate = new Date()`, so when the caller omits the reference date, two
invocations with identical explicit arguments read different ambient clock
values and return different results (10.00 after one year, 20.03 after
two). -/
theorem accruedInterest_clock_default_refuted :
    calculateAccruedInterest 100 10 ⟨2023, 0, 1⟩ Option.none .simple Option.none
        ⟨2024, 0, 1⟩ ≠
      calculateAccruedInterest 100 10 ⟨2023, 0, 1⟩ Option.none .simple Option.none
        ⟨2025, 0, 1⟩ := by
  have h1 : calculateAccruedInterest 100 10 ⟨2023, 0, 1⟩ Option.none .simple Option.none
      ⟨2024, 0, 1⟩ = .ok ((10 : ℚ) : ℝ) := by
    show calculatePeriodInterest 100 10 ⟨2023, 0, 1⟩ ⟨2024, 0, 1⟩ .simple Option.none = _
    exact periodInterest_simple_eq 100 10 _ _ 10 (by decide) (by decide)
  have h2 : calculateAccruedInterest 100 10 ⟨2023, 0, 1⟩ Option.none .simple Option.none
      ⟨2025, 0, 1⟩ = .ok ((2003 / 100 : ℚ) : ℝ) := by
    show calculatePeriodInterest 100 10 ⟨2023, 0, 1⟩ ⟨2025, 0, 1⟩ .simple Option.none = _
    exact periodInterest_simple_eq 100 10 _ _ (2003 / 100) (by decide) (by decide)
  rw [h1, h2]
  intro hc
  have hcast : ((10 : ℚ) : ℝ) = ((2003 / 100 : ℚ) : ℝ) := by injection hc
  exact absurd (Rat.cast_injective hcast) (by decide)

/-- Claim C5, amended: when the caller does pass the reference date
explicitly, `calculateAccruedInterest` is a pure function of its arguments:
the ambient clock value is never consulted, so any two invocations with
equal explicit arguments return equal results. Only the omitted-date call
path samples the clock. -/
theorem accruedInterest_deterministic_with_explicit_date (p r : ℚ)
    (lastCalc d : Date) (it : InterestType) (cf : Option CompoundFrequency)
    (now1 now2 : Date) :
    calculateAccruedInterest p r lastCalc (Option.some d) it cf now1 =
      calculateAccruedInterest p r lastCalc (Option.some d) it cf now2 := rfl

/-! ## Claim C10: compound type without a frequency -/

/-- Claim C10 fails only in its final words: with `interestType = compound`
and no `compoundFrequency`, `calculateTotalAmountDue` falls through every
interest branch and returns `round2(principal)` — the principal rounded to
cents — with zero interest, not the principal itself (100.00 for a
principal of 100.004). -/
theorem compound_missing_frequency_refuted :
    calculateTotalAmountDue (100004 / 1000) 5 ⟨2024, 0, 1⟩ ⟨2024, 6, 1⟩ .compound
        Option.none = .ok (((100 : ℚ) : ℝ), 0) ∧
    ¬ ((100 : ℚ) : ℝ) = ((100004 / 1000 : ℚ) : ℝ) := by
  constructor
  · have h := totalAmountDue_compound_noFreq (100004 / 1000) 5 ⟨2024, 0, 1⟩ ⟨2024, 6, 1⟩
      (by decide)
    rw [h, (by decide : round2 ((100004 : ℚ) / 1000) = 100)]
  · intro hc
    exact absurd (Rat.cast_injective hc) (by decide)

/-- Claim C10, amended: in the app implementation, `compound` interest with
no `compoundFrequency` is silently treated as no interest rather than
raising an error — `calculatePeriodInterest` returns 0 and
`calculateTotalAmountDue` returns the principal rounded to two decimals
with zero interest. -/
theorem compound_missing_frequency_behavior (p r : ℚ) (s e : Date) (hr : r ≠ 0) :
    calculatePeriodInterest p r s e .compound Option.none = .ok 0 ∧
    calculateTotalAmountDue p r s e .compound Option.none =
      .ok (((round2 p : ℚ) : ℝ), 0) :=
  ⟨periodInterest_compound_noFreq p r s e, totalAmountDue_compound_noFreq p r s e hr⟩

/-- Witness for `compound_missing_frequency_behavior`. -/
theorem compound_missing_frequency_behavior_witness :
    (5 : ℚ) ≠ 0 ∧
    (calculatePeriodInterest (100004 / 1000) 5 ⟨2024, 0, 1⟩ ⟨2024, 6, 1⟩ .compound
        Option.none = .ok 0 ∧
     calculateTotalAmountDue (100004 / 1000) 5 ⟨2024, 0, 1⟩ ⟨2024, 6, 1⟩ .compound
        Option.none = .ok (((round2 (100004 / 1000) : ℚ) : ℝ), 0)) :=
  ⟨by decide, compound_missing_frequency_behavior (100004 / 1000) 5 ⟨2024, 0, 1⟩
    ⟨2024, 6, 1⟩ (by decide)⟩

/-! ## Claim C3: tenure solving -/

/-- Claim C3: for positive principal, positive EMI and positive rate,
`calculateNumberOfInstallments` fails with the domain error exactly when
`emi ≤ principal * ratePerPeriod`, and otherwise returns
`ceil(log(emi / (emi − principal*r)) / log(1 + r))`; for a zero rate it
returns `ceil(principal / emi)` without failing. -/
theorem numberOfInstallments_spec (principal emiAmount annualInterestRate : ℚ)
    (f : PaymentFrequency) (hp : 0 < principal) (he : 0 < emiAmount) :
    (0 < annualInterestRate →
      (calculateNumberOfInstallments principal emiAmount annualInterestRate f =
          .error .emiTooLow ↔
        emiAmount ≤ principal * (annualInterestRate / 100 / getPeriodsPerYear f))) ∧
    (0 < annualInterestRate →
      principal * (annualInterestRate / 100 / getPeriodsPerYear f) < emiAmount →
      calculateNumberOfInstallments principal emiAmount annualInterestRate f =
        .ok ⌈Real.log ((emiAmount : ℝ) / ((emiAmount : ℝ) - (principal : ℝ) *
            ((annualInterestRate / 100 / getPeriodsPerYear f : ℚ) : ℝ))) /
          Real.log (1 + ((annualInterestRate / 100 / getPeriodsPerYear f : ℚ) : ℝ))⌉) ∧
    (annualInterestRate = 0 →
      calculateNumberOfInstallments principal emiAmount annualInterestRate f =
        .ok ⌈principal / emiAmount⌉) := by
  have hguard : ¬ (emiAmount ≤ 0 ∨ principal ≤ 0) := by
    push_neg
    exact ⟨he, hp⟩
  refine ⟨?_, ?_, ?_⟩
  · intro hrpos
    simp only [calculateNumberOfInstallments, calculateNumberOfInstallmentsWith]
    rw [if_neg hguard, if_neg hrpos.ne']
    by_cases hle : emiAmount ≤ principal * (annualInterestRate / 100 / getPeriodsPerYear f)
    · simp [hle]
    · simp [hle]
  · intro hrpos hlt
    simp only [calculateNumberOfInstallments, calculateNumberOfInstallmentsWith]
    rw [if_neg hguard, if_neg hrpos.ne', if_neg (not_le.mpr hlt)]
  · intro hr0
    simp only [calculateNumberOfInstallments, calculateNumberOfInstallmentsWith]
    rw [if_neg hguard, if_pos hr0]

/-- Witness for `numberOfInstallments_spec`. -/
theorem numberOfInstallments_spec_witness :
    (0 : ℚ) < 100000 ∧ (0 : ℚ) < 8884 ∧
    ((0 < (12 : ℚ) →
      (calculateNumberOfInstallments 100000 8884 12 .monthly = .error .emiTooLow ↔
        (8884 : ℚ) ≤ 100000 * (12 / 100 / getPeriodsPerYear .monthly))) ∧
     (0 < (12 : ℚ) →
      100000 * ((12 : ℚ) / 100 / getPeriodsPerYear .monthly) < 8884 →
      calculateNumberOfInstallments 100000 8884 12 .monthly =
        .ok ⌈Real.log ((8884 : ℚ) / ((8884 : ℚ) - (100000 : ℚ) *
            (((12 : ℚ) / 100 / getPeriodsPerYear .monthly : ℚ) : ℝ))) /
          Real.log (1 + (((12 : ℚ) / 100 / getPeriodsPerYear .monthly : ℚ) : ℝ))⌉) ∧
     ((12 : ℚ) = 0 →
      calculateNumberOfInstallments 100000 8884 12 .monthly =
        .ok ⌈(100000 : ℚ) / 8884⌉)) :=
  ⟨by decide, by decide,
    numberOfInstallments_spec 100000 8884 12 .monthly (by decide) (by decide)⟩

/-! ## Claim C4: rounding policy -/

/-- Modelled from the spec: "every returned monetary value is rounded to 2
decimal places ... intermediate compounding math is performed at full
precision before the final rounding" — for a simple-interest total amount
due this single-final-rounding reading is `round2 (P + P*R*(t/365)/100)`,
to be compared with the code's value. -/
def specTotalAmountDueSingleRounding (p r t : ℚ) : ℚ :=
  round2 (p + p * r * (t / 365) / 100)

/-- Claim C4 fails as stated: `calculateTotalAmountDue` adds the
already-rounded simple interest to the principal and rounds again. For
principal 100.004 at 5.01 % over 73 days the code returns 101.00, while a
single final rounding of the full-precision sum gives 101.01. -/
theorem totalAmountDue_double_rounding_refuted :
    calculateTotalAmountDue (100004 / 1000) (501 / 100) ⟨2024, 0, 1⟩ ⟨2024, 2, 14⟩
        .simple Option.none = .ok (((101 : ℚ) : ℝ), ((1 : ℚ) : ℝ)) ∧
    specTotalAmountDueSingleRounding (100004 / 1000) (501 / 100) 73 = 10101 / 100 ∧
    ¬ ((101 : ℚ) : ℝ) = ((10101 / 100 : ℚ) : ℝ) := by
  refine ⟨?_, by decide, ?_⟩
  · have h := totalAmountDue_simple_eq (100004 / 1000) (501 / 100) ⟨2024, 0, 1⟩
      ⟨2024, 2, 14⟩ 1 (by decide) (by decide)
    rw [h, (by decide : round2 ((100004 : ℚ) / 1000 + 1) = 101),
      (by decide : round2 (1 : ℚ) = 1)]
  · intro hc
    exact absurd (Rat.cast_injective hc) (by decide)

/-- Claim C4, amended: each leaf operation rounds its return value to two
decimals at the point of return with its own intermediate math at full
precision — `calculateSimpleInterest`, `calculateCompoundInterest` and
`calculateEMI` return `round2` of their exact formulas,
`calculatePaymentBreakdown` returns `round2` of the exact min/max/cap
expressions, and every schedule entry field is a single `round2` of an
expression in the full-precision (never-rounded) running balance — but two
composites re-consume already-rounded outputs: the schedule computes from
the rounded EMI, and `calculateTotalAmountDue` adds the already-rounded
interest to the principal and rounds the sum again (double rounding)
rather than performing a single final rounding. -/
theorem rounding_policy_amended (p r t pay acc out : ℚ) (n : ℕ)
    (f : PaymentFrequency) (cf : CompoundFrequency) (d issue due : Date)
    (hp : 0 < p) (hr : 0 < r) (ht : 0 ≤ t) (hn : n ≠ 0) :
    calculateSimpleInterest p r t = .ok (round2 (p * r * (t / 365) / 100)) ∧
    calculateCompoundInterest p r t cf =
      .ok (round2R ((p : ℝ) *
            (1 + (r : ℝ) / 100 / ((compoundFrequencyPeriods cf : ℚ) : ℝ)) ^
            (((compoundFrequencyPeriods cf : ℚ) : ℝ) * ((t : ℝ) / 365))),
          round2R ((p : ℝ) *
            (1 + (r : ℝ) / 100 / ((compoundFrequencyPeriods cf : ℚ) : ℝ)) ^
            (((compoundFrequencyPeriods cf : ℚ) : ℝ) * ((t : ℝ) / 365)) - (p : ℝ))) ∧
    calculateEMI p r n f = .ok (round2 (p * (r / 100 / getPeriodsPerYear f) *
        (1 + r / 100 / getPeriodsPerYear f) ^ n /
        ((1 + r / 100 / getPeriodsPerYear f) ^ n - 1))) ∧
    calculatePaymentBreakdown pay acc out =
      { principalPortion := round2 (if out < max 0 (pay - min pay acc) then out
          else max 0 (pay - min pay acc))
        interestPortion := round2 (min pay acc) } ∧
    (∀ emi, calculateEMI p r n f = .ok emi →
      ∃ s, generateAmortizationSchedule p r n f d = .ok s ∧
        ∀ i, i < n → s.get? i =
          Option.some (unrolledEntry emi (r / 100 / getPeriodsPerYear f) p f d 1 n i)) ∧
    (∀ q, calculateSimpleInterest p r ((due.toEpochDay - issue.toEpochDay : ℤ) : ℚ) = .ok q →
      calculateTotalAmountDue p r issue due .simple Option.none =
        .ok (((round2 (p + q) : ℚ) : ℝ), ((round2 q : ℚ) : ℝ))) := by
  refine ⟨?_, ?_, ?_, rfl, ?_, ?_⟩
  · simp only [calculateSimpleInterest]
    rw [if_neg (by push_neg; exact ⟨hp, hr.le, ht⟩)]
  · exact compoundInterest_ok_eq p r t cf (by push_neg; exact ⟨hp, hr.le, ht⟩)
  · simp only [calculateEMI, calculateEMIWith]
    rw [if_neg (not_le.mpr hp), if_neg hn, if_neg hr.ne']
  · intro emi hemi
    have hemi' : calculateEMIWith getPeriodsPerYear p r n f = .ok emi := hemi
    refine ⟨scheduleAux emi (r / 100 / getPeriodsPerYear f) f n 1 p d, ?_, ?_⟩
    · simp only [generateAmortizationSchedule, generateAmortizationScheduleWith, hemi',
        Except.map, if_neg hr.ne']
    · intro i hin
      exact scheduleAux_get emi (r / 100 / getPeriodsPerYear f) f n i 1 p d hin
  · intro q hq
    exact totalAmountDue_simple_eq p r issue due q hr.ne' hq

/-- Witness for `rounding_policy_amended`. -/
theorem rounding_policy_amended_witness :
    (0 : ℚ) < 10000 ∧ (0 : ℚ) < 12 ∧ (0 : ℚ) ≤ 365 ∧ 12 ≠ 0 ∧
    (calculateSimpleInterest 10000 12 365 = .ok (round2 (10000 * 12 * (365 / 365) / 100)) ∧
     calculateCompoundInterest 10000 12 365 .monthly =
       .ok (round2R (((10000 : ℚ) : ℝ) *
             (1 + ((12 : ℚ) : ℝ) / 100 /
               ((compoundFrequencyPeriods .monthly : ℚ) : ℝ)) ^
             (((compoundFrequencyPeriods .monthly : ℚ) : ℝ) * (((365 : ℚ) : ℝ) / 365))),
           round2R (((10000 : ℚ) : ℝ) *
             (1 + ((12 : ℚ) : ℝ) / 100 /
               ((compoundFrequencyPeriods .monthly : ℚ) : ℝ)) ^
             (((compoundFrequencyPeriods .monthly : ℚ) : ℝ) * (((365 : ℚ) : ℝ) / 365)) -
             ((10000 : ℚ) : ℝ))) ∧
     calculateEMI 10000 12 12 .monthly =
       .ok (round2 (10000 * (12 / 100 / getPeriodsPerYear .monthly) *
         (1 + 12 / 100 / getPeriodsPerYear .monthly) ^ 12 /
         ((1 + 12 / 100 / getPeriodsPerYear .monthly) ^ 12 - 1))) ∧
     calculatePaymentBreakdown 1000 500 10000 =
       { principalPortion := round2 (if (10000 : ℚ) < max 0 (1000 - min 1000 500) then 10000
           else max 0 (1000 - min 1000 500))
         interestPortion := round2 (min 1000 500) } ∧
     (∀ emi, calculateEMI 10000 12 12 .monthly = .ok emi →
       ∃ s, generateAmortizationSchedule 10000 12 12 .monthly ⟨2025, 0, 15⟩ = .ok s ∧
         ∀ i, i < 12 → s.get? i =
           Option.some (unrolledEntry emi (12 / 100 / getPeriodsPerYear .monthly) 10000
             .monthly ⟨2025, 0, 15⟩ 1 12 i)) ∧
     (∀ q, calculateSimpleInterest 10000 12
         (((⟨2024, 6, 1⟩ : Date).toEpochDay - (⟨2024, 0, 1⟩ : Date).toEpochDay : ℤ) : ℚ) =
           .ok q →
       calculateTotalAmountDue 10000 12 ⟨2024, 0, 1⟩ ⟨2024, 6, 1⟩ .simple Option.none =
         .ok (((round2 (10000 + q) : ℚ) : ℝ), ((round2 q : ℚ) : ℝ)))) :=
  ⟨by decide, by decide, by decide, by decide,
    rounding_policy_amended 10000 12 365 1000 500 10000 12 .monthly .monthly
      ⟨2025, 0, 15⟩ ⟨2024, 0, 1⟩ ⟨2024, 6, 1⟩ (by decide) (by decide) (by decide) (by decide)⟩

/-! ## Claim C8: monotonicity in compounding density -/

/-- Densifying the compounding periods increases the accumulation factor:
for `0 < r`, `0 < t` and `0 < n ≤ m`, `(1 + r/n)^(n t) ≤ (1 + r/m)^(m t)`
(real powers). Proved through Bernoulli's inequality for real exponents. -/
theorem accumulation_factor_mono {r t : ℝ} (hr : 0 < r) (ht : 0 < t) {n m : ℝ}
    (hn : 0 < n) (hnm : n ≤ m) :
    (1 + r / n) ^ (n * t) ≤ (1 + r / m) ^ (m * t) := by
  have hm : 0 < m := lt_of_lt_of_le hn hnm
  have hrm : 0 ≤ r / m := div_nonneg hr.le hm.le
  have hb1 : (0 : ℝ) ≤ 1 + r / m := by linarith
  have hbn : (0 : ℝ) ≤ 1 + r / n := by positivity
  have hkey : 1 + r / n ≤ (1 + r / m) ^ (m / n) := by
    have hp : 1 ≤ m / n := (one_le_div hn).2 hnm
    have hber := one_add_mul_self_le_rpow_one_add (by linarith : (-1 : ℝ) ≤ r / m) hp
    have heq : 1 + m / n * (r / m) = 1 + r / n := by
      field_simp
      ring
    rw [heq] at hber
    exact hber
  have h2 : (1 + r / n) ^ (n * t) ≤ ((1 + r / m) ^ (m / n)) ^ (n * t) :=
    Real.rpow_le_rpow hbn hkey (by positivity)
  rw [← Real.rpow_mul hb1] at h2
  have h3 : m / n * (n * t) = m * t := by
    field_simp
    ring
  rwa [h3] at h2

/-- Claim C8: for fixed positive principal, rate and day count, the interest
returned by `calculateCompoundInterest` is monotonically non-decreasing in
compounding density: daily ≥ monthly ≥ yearly. -/
theorem compound_interest_frequency_monotone (p r d : ℚ)
    (hp : 0 < p) (hr : 0 < r) (hd : 0 < d) :
    ∃ xd xm xy : ℝ × ℝ,
      calculateCompoundInterest p r d .daily = .ok xd ∧
      calculateCompoundInterest p r d .monthly = .ok xm ∧
      calculateCompoundInterest p r d .yearly = .ok xy ∧
      xm.2 ≤ xd.2 ∧ xy.2 ≤ xm.2 := by
  have hguard : ¬ (p ≤ 0 ∨ r < 0 ∨ d < 0) := by
    push_neg
    exact ⟨hp, hr.le, hd.le⟩
  have hrR : (0 : ℝ) < (r : ℝ) / 100 := by
    have : (0 : ℝ) < (r : ℝ) := by exact_mod_cast hr
    positivity
  have htR : (0 : ℝ) < (d : ℝ) / 365 := by
    have : (0 : ℝ) < (d : ℝ) := by exact_mod_cast hd
    positivity
  have hpR : (0 : ℝ) ≤ (p : ℝ) := by
    have : (0 : ℝ) < (p : ℝ) := by exact_mod_cast hp
    linarith
  have hmono : ∀ n m : ℝ, 0 < n → n ≤ m →
      (p : ℝ) * (1 + (r : ℝ) / 100 / n) ^ (n * ((d : ℝ) / 365)) ≤
        (p : ℝ) * (1 + (r : ℝ) / 100 / m) ^ (m * ((d : ℝ) / 365)) :=
    fun n m hn hnm =>
      mul_le_mul_of_nonneg_left (accumulation_factor_mono hrR htR hn hnm) hpR
  have hcc : ∀ cf : CompoundFrequency, calculateCompoundInterest p r d cf =
      .ok (round2R ((p : ℝ) *
              (1 + (r : ℝ) / 100 / ((compoundFrequencyPeriods cf : ℚ) : ℝ)) ^
              (((compoundFrequencyPeriods cf : ℚ) : ℝ) * ((d : ℝ) / 365))),
            round2R ((p : ℝ) *
              (1 + (r : ℝ) / 100 / ((compoundFrequencyPeriods cf : ℚ) : ℝ)) ^
              (((compoundFrequencyPeriods cf : ℚ) : ℝ) * ((d : ℝ) / 365)) - (p : ℝ))) := by
    intro cf
    simp only [calculateCompoundInterest]
    rw [if_neg hguard]
  refine ⟨_, _, _, hcc .daily, hcc .monthly, hcc .yearly, ?_, ?_⟩
  · exact round2R_mono (sub_le_sub_right (hmono _ _
      (by norm_num [compoundFrequencyPeriods]) (by norm_num [compoundFrequencyPeriods])) _)
  · exact round2R_mono (sub_le_sub_right (hmono _ _
      (by norm_num [compoundFrequencyPeriods]) (by norm_num [compoundFrequencyPeriods])) _)

/-- Witness for `compound_interest_frequency_monotone`. -/
theorem compound_interest_frequency_monotone_witness :
    (0 : ℚ) < 10000 ∧ (0 : ℚ) < 12 ∧ (0 : ℚ) < 365 ∧
    (∃ xd xm xy : ℝ × ℝ,
      calculateCompoundInterest 10000 12 365 .daily = .ok xd ∧
      calculateCompoundInterest 10000 12 365 .monthly = .ok xm ∧
      calculateCompoundInterest 10000 12 365 .yearly = .ok xy ∧
      xm.2 ≤ xd.2 ∧ xy.2 ≤ xm.2) :=
  ⟨by decide, by decide, by decide,
    compound_interest_frequency_monotone 10000 12 365 (by decide) (by decide) (by decide)⟩

/-- Witness for `schedule_date_advance_rules` on a 3-installment monthly
schedule. -/
theorem schedule_date_advance_rules_witness :
    (0 : ℚ) < 1200 ∧ 0 < 3 ∧
    ((∃ s, generateAmortizationSchedule 1200 10 3 .monthly ⟨2024, 0, 31⟩ = .ok s ∧
      s.Chain' (fun a b => b.dueDate = getNextPaymentDate a.dueDate .monthly) ∧
      ∀ e, s.head? = Option.some e → e.dueDate = ⟨2024, 0, 31⟩) ∧
    (∀ d : Date,
      getNextPaymentDate d .daily = addDays d 1 ∧
      getNextPaymentDate d .weekly = addDays d 7 ∧
      getNextPaymentDate d .biweekly = addDays d 14 ∧
      getNextPaymentDate d .monthly = addMonths d 1 ∧
      getNextPaymentDate d .quarterly = addMonths d 3 ∧
      getNextPaymentDate d .yearly = addYears d 1 ∧
      getNextPaymentDate d .one_time = addMonths d 1 ∧
      getNextPaymentDate d .custom = d)) :=
  ⟨by decide, by decide,
    schedule_date_advance_rules 1200 10 3 .monthly ⟨2024, 0, 31⟩ (by decide) (by decide)⟩

end LoanLog
